import Mathlib

/-!
Verification of the semantic-indexing and similarity-search subsystem of the
guardian-ai repository, as a shallow embedding in Lean 4.

The embedded code lives in:
  * `lemma/embeddings/segment.py`                (`segment_codebase`)
  * `lemma/embeddings/embeddings.py`             (`create_embeddings`)
  * `lemma/embeddings/create_vector_indexes.py`  (`create_vector_indexes`)
  * `lemma/embeddings/search.py`                 (`search_similar_code`)
  * `detect.py`                                  (`is_ignored_file`)

Modelling conventions:
  * Python `str` values that are inspected character-by-character are modelled
    as `List Char` (file contents, chunk texts); opaque identifiers and paths
    stay `String`.
  * `float` vectors are modelled with exact rationals (`Rat`); the only float
    operations the code performs on them are length inspection and the exact
    comparison `np.linalg.norm(arr) == 0`, which over the reals holds iff the
    sum of squares is zero.
  * The sqlite tables are modelled as lists of row records kept in rowid
    (insertion) order; `INSERT` appends, `DELETE ... WHERE` filters,
    `SELECT ... ORDER BY rowid ASC` is the list order.
  * External collaborators (the embedding service when quantifying over the
    general contract, the FAISS k-nearest-neighbor query, `os.walk`, and the
    freshly generated `uuid4` values) are inputs to the embedded functions,
    as §6 of the system description treats them.
-/

namespace GuardianAI

/-! ### Python string primitives, modelled over `List Char` -/

/-- Whether the first list is an initial segment of the second
(models Python `str.startswith` on character lists). -/
def charsBeginWith : List Char → List Char → Bool
  | [], _ => true
  | _ :: _, [] => false
  | a :: as, b :: bs => a == b && charsBeginWith as bs

/-- Models Python `s.endswith(pat)`. -/
def pyEndsWith (s pat : String) : Bool :=
  charsBeginWith pat.data.reverse s.data.reverse

/-- Whether `sub` occurs as a contiguous run inside `l`
(models Python `sub in s`). -/
def charsContain (sub : List Char) : List Char → Bool
  | [] => sub.isEmpty
  | c :: t => charsBeginWith sub (c :: t) || charsContain sub t

/-- Models Python `f.readlines()` applied to decoded text: the text is split
after every newline character, each line keeping its trailing `'\n'`; a final
fragment with no newline is kept as a last line; empty text gives no lines.
`acc` holds the characters of the line being assembled, in reverse. -/
def readlinesAux : List Char → List Char → List (List Char)
  | acc, [] => if acc.isEmpty then [] else [acc.reverse]
  | acc, c :: cs =>
    if c = '\n' then (acc.reverse ++ [c]) :: readlinesAux [] cs
    else readlinesAux (c :: acc) cs

/-- Result of `f.readlines()` on a file whose decoded content is `text`. -/
def pyReadlines (text : List Char) : List (List Char) :=
  readlinesAux [] text

/-! ### Segmenter (`lemma/embeddings/segment.py`) -/

/-- One element of the list `segment_codebase` returns
(the dict `{file_path, chunk_index, chunk_text}`). -/
structure SegChunk where
  file_path : String
  chunk_index : Nat
  chunk_text : List Char
  deriving DecidableEq, Repr

/-- The chunking `while` loop of `segment_codebase` (segment.py lines 52-69):
starting at window index `i`, slice off `m` lines at a time, joining each
window into one chunk text.  For `m = 0` the Python loop does not terminate;
the model returns `[]` there and every theorem below assumes `0 < m`. -/
def chunkLoop (relPath : String) (m : Nat) (lines : List (List Char)) (i : Nat) :
    List SegChunk :=
  if h : m = 0 ∨ lines = [] then []
  else
    SegChunk.mk relPath i (lines.take m).flatten ::
      chunkLoop relPath m (lines.drop m) (i + 1)
termination_by lines.length
decreasing_by
  have h1 : m ≠ 0 := fun hm => h (Or.inl hm)
  have h2 : lines ≠ [] := fun hl => h (Or.inr hl)
  have h3 : 0 < lines.length := List.length_pos.mpr h2
  simp only [List.length_drop]
  omega

/-- The successive line windows the loop slices (the values taken by
`lines[chunk_start:chunk_end]`), without the join. -/
def chunkWindows (m : Nat) (lines : List (List Char)) : List (List (List Char)) :=
  if h : m = 0 ∨ lines = [] then []
  else lines.take m :: chunkWindows m (lines.drop m)
termination_by lines.length
decreasing_by
  have h1 : m ≠ 0 := fun hm => h (Or.inl hm)
  have h2 : lines ≠ [] := fun hl => h (Or.inr hl)
  have h3 : 0 < lines.length := List.length_pos.mpr h2
  simp only [List.length_drop]
  omega

/-- The function `is_ignored_file` (detect.py lines 159-210): a file is ignored when its
name ends with one of a fixed list of extensions / names. -/
def is_ignored_file (file_name : String) : Bool :=
  [".ipynb", ".png", ".jpg", ".jpeg", ".gif", ".svg", ".bmp", ".ico",
   ".mp3", ".wav", ".flac", ".aac", ".ogg", ".wma",
   ".mp4", ".avi", ".mov", ".wmv", ".flv", ".mkv",
   ".pdf", ".doc", ".docx", ".xls", ".xlsx", ".ppt", ".pptx",
   ".zip", ".tar", ".gz", ".rar", ".7z",
   ".exe", ".dll", ".so", ".dylib",
   ".log", ".bak", ".tmp",
   ".DS_Store", "Thumbs.db", ".gitignore", ".gitattributes",
   "LICENSE", "README.md", "__init__.py"].any
    (fun ext => pyEndsWith file_name ext)

/-- The naive test-file check of segment.py line 39:
`"test" in filename.lower()` (`str.lower` modelled per character, which
agrees with Python on the ASCII file names involved). -/
def nameHasTest (file_name : String) : Bool :=
  charsContain "test".data (file_name.data.map Char.toLower)

/-- A directory entry as yielded by `os.walk`: one file of it. `content` is
the decoded text `open(...).readlines()` would split, `none` when reading
raises (the file is then logged and skipped). -/
structure FileEntry where
  name : String
  content : Option (List Char)

/-- One `(root, dirs, files)` triple yielded by `os.walk(repo_path)`.
`root` is the directory's path string as the walk reports it; `relDir` is its
path relative to the repository root (`""` for the root itself), which is how
`full_path.relative_to(repo_path)` decomposes `rel_path`. -/
structure DirEntry where
  root : String
  relDir : String
  files : List FileEntry

/-- Value of `full_path.relative_to(repo_path).as_posix()` for a file `name` inside the
walked directory `relDir`. -/
def relPathOf (relDir name : String) : String :=
  if relDir = "" then name else relDir ++ "/" ++ name

/-- The per-file body of `segment_codebase` (segment.py lines 32-69):
filtering by `is_ignored_file`, the naive test check, the read guard, then the
chunking loop. -/
def processFile (m : Nat) (ignore_tests : Bool) (relDir : String)
    (f : FileEntry) : List SegChunk :=
  if is_ignored_file f.name then []
  else if ignore_tests && nameHasTest f.name then []
  else
    match f.content with
    | none => []
    | some text => chunkLoop (relPathOf relDir f.name) m (pyReadlines text) 0

/-- The function `segment_codebase` (segment.py lines 8-71) over a walk of the repository
tree: every walked directory whose reported path ends with `".git"` is
skipped wholesale; the files of every other directory are processed. -/
def segment_codebase (walk : List DirEntry) (max_chunk_size : Nat)
    (ignore_tests : Bool) : List SegChunk :=
  (walk.map (fun d =>
    if pyEndsWith d.root ".git" then []
    else (d.files.map (processFile max_chunk_size ignore_tests d.relDir)).flatten)).flatten

/-! ### Embedding Generator (`lemma/embeddings/embeddings.py`, lines 86-118)

The function's `try` body is a pure loop that cannot raise, so the `except`
branch returning `[]` is unreachable: for every text the function appends the
stub all-zero vector of dimension 384 and makes no external call. -/

/-- The stub `create_embeddings`: one all-zero 384-dimensional vector per input text. -/
def create_embeddings (texts : List String) : List (List Rat) :=
  texts.map (fun _ => List.replicate 384 (0 : Rat))

/-- The squared Euclidean norm; `np.linalg.norm(arr) == 0` in exact
arithmetic holds iff `normSq arr = 0`. -/
def normSq (v : List Rat) : Rat :=
  (v.map (fun x => x * x)).sum

/-! ### Metadata store rows (`lemma/embeddings/create_tables.py`) -/

/-- A row of `file_chunks`. -/
structure ChunkRow where
  id : String
  project_id : String
  repo_path : String
  file_path : String
  chunk_index : Nat
  chunk_text : String
  deriving DecidableEq, Repr

/-- A row of `file_chunk_embeddings`; the float32 blob is modelled as the
vector it encodes, alongside the declared `embedding_dim`. -/
structure EmbeddingRow where
  chunk_id : String
  embedding : List Rat
  embedding_dim : Nat
  deriving DecidableEq, Repr

/-- A row of `faiss_index_mapping`. -/
structure MappingRow where
  project_id : String
  faiss_index : Nat
  chunk_id : String
  deriving DecidableEq, Repr

/-- The three tables, each in rowid (insertion) order. -/
structure Db where
  file_chunks : List ChunkRow
  file_chunk_embeddings : List EmbeddingRow
  faiss_index_mapping : List MappingRow
  deriving DecidableEq, Repr

/-! ### Vector Index Builder (`lemma/embeddings/create_vector_indexes.py`) -/

/-- A chunk as handed to `create_vector_indexes` (the dicts produced by
`segment_codebase`; chunk text is opaque at this layer). -/
structure ChunkInput where
  file_path : String
  chunk_index : Nat
  chunk_text : String
  deriving DecidableEq, Repr

/-- State of the per-chunk loop of `create_vector_indexes`
(create_vector_indexes.py lines 74-117). -/
structure LoopSt where
  db : Db
  faiss_vectors : List (List Rat)
  faiss_index_map : List String

/-- The per-chunk loop (create_vector_indexes.py lines 77-117), over the
chunks paired with their fresh `uuid4` ids and the vectors
`create_embeddings` returned (Python reads `embeddings[i]`; the lists are
aligned by construction).  For each chunk: always insert the `file_chunks`
row; on `arr.shape[0] != dim` skip the rest (no `file_chunk_embeddings`
row); otherwise insert the embedding row; on zero norm skip the index;
otherwise record the vector and its chunk id for the FAISS index. -/
def indexLoop (project_id repo_local_path : String) (dim : Nat) :
    List (ChunkInput × String × List Rat) → LoopSt → LoopSt
  | [], st => st
  | (chunk, chunk_id, vector) :: rest, st =>
    let st1 : LoopSt :=
      { st with db :=
          { st.db with file_chunks := st.db.file_chunks ++
              [ChunkRow.mk chunk_id project_id repo_local_path
                chunk.file_path chunk.chunk_index chunk.chunk_text] } }
    if vector.length ≠ dim then
      indexLoop project_id repo_local_path dim rest st1
    else
      let st2 : LoopSt :=
        { st1 with db :=
            { st1.db with file_chunk_embeddings := st1.db.file_chunk_embeddings ++
                [EmbeddingRow.mk chunk_id vector dim] } }
      if normSq vector = 0 then
        indexLoop project_id repo_local_path dim rest st2
      else
        indexLoop project_id repo_local_path dim rest
          { st2 with
            faiss_vectors := st2.faiss_vectors ++ [vector],
            faiss_index_map := st2.faiss_index_map ++ [chunk_id] }

/-- Whether the loop lets a (chunk, id, vector) triple through to the FAISS
index: the vector's length equals the run dimension and its norm is not
zero. -/
def survives (dim : Nat) (t : ChunkInput × String × List Rat) : Bool :=
  t.2.2.length == dim && !(normSq t.2.2 == 0)

/-- Outcome of one `create_vector_indexes` run: the database after the
commits the run reached, the vectors the FAISS index file holds in insertion
order, the in-memory `faiss_index_map`, and either the raised `ValueError`
message or the returned index file path. -/
structure BuildResult where
  db : Db
  indexVectors : List (List Rat)
  indexMap : List String
  result : Except String String
  deriving Repr

/-- Whether the run returned a path (the `Except.ok` constructor). -/
def resultIsOk : Except String String → Bool
  | Except.ok _ => true
  | Except.error _ => false

/-- Step 1 of `create_vector_indexes` (create_vector_indexes.py line 59):
`DELETE FROM faiss_index_mapping WHERE project_id = ?`, committed before
anything else runs. -/
def deleteProjectMapping (db : Db) (project_id : String) : Db :=
  { db with faiss_index_mapping :=
      db.faiss_index_mapping.filter (fun r => !(r.project_id == project_id)) }

/-- The run dimension `dim = len(embeddings[0])` (create_vector_indexes.py line 70). -/
def buildDim (embeddings : List (List Rat)) : Nat :=
  (embeddings.headD []).length

/-- The loop's iteration data: each chunk with its fresh `uuid4` id and its
vector (`embeddings[i]`; the lists are aligned 1:1 by `create_embeddings`). -/
def buildTriples (all_chunks : List ChunkInput) (ids : List String)
    (embeddings : List (List Rat)) : List (ChunkInput × String × List Rat) :=
  all_chunks.zip (ids.zip embeddings)

/-- The state after the per-chunk loop ran from the freshly cleared
mapping. -/
def buildState (db : Db) (project_id repo_local_path : String)
    (all_chunks : List ChunkInput) (ids : List String)
    (embeddings : List (List Rat)) : LoopSt :=
  indexLoop project_id repo_local_path (buildDim embeddings)
    (buildTriples all_chunks ids embeddings)
    (LoopSt.mk (deleteProjectMapping db project_id) [] [])

/-- The builder `create_vector_indexes` (create_vector_indexes.py lines 13-153), with the
embedding-service response `embeddings` an explicit argument (§6 treats the
service as an external collaborator whose dimension is inferred from the
first response) and the fresh `uuid4` ids likewise.  Steps: delete the
project's `faiss_index_mapping` rows (committed); raise on an empty
embedding batch; set `dim` from the first vector; run the per-chunk loop
(rows committed); raise when no vector survived; otherwise build the index
over the surviving vectors, write the index file, and append one mapping row
per indexed vector with its 0-based insertion position. -/
def create_vector_indexes_with (db : Db) (project_id repo_local_path : String)
    (all_chunks : List ChunkInput) (ids : List String)
    (embeddings : List (List Rat)) : BuildResult :=
  if embeddings.isEmpty then
    BuildResult.mk (deleteProjectMapping db project_id) [] []
      (Except.error "No embeddings generated, cannot build FAISS index.")
  else
    let st := buildState db project_id repo_local_path all_chunks ids embeddings
    if st.faiss_vectors.isEmpty then
      BuildResult.mk st.db st.faiss_vectors st.faiss_index_map
        (Except.error "No valid embeddings to add to FAISS index.")
    else
      BuildResult.mk
        { st.db with faiss_index_mapping := st.db.faiss_index_mapping ++
            (st.faiss_index_map.enum.map
              (fun p => MappingRow.mk project_id p.1 p.2)) }
        st.faiss_vectors st.faiss_index_map
        (Except.ok ("bin/" ++ project_id ++ "_index.faiss"))

/-- The full pipeline as the repository binds it: the chunk texts are
embedded by the stub `create_embeddings`. -/
def create_vector_indexes (db : Db) (project_id repo_local_path : String)
    (all_chunks : List ChunkInput) (ids : List String) : BuildResult :=
  create_vector_indexes_with db project_id repo_local_path all_chunks ids
    (create_embeddings (all_chunks.map (fun c => c.chunk_text)))

/-- The chunk id the `faiss_index_mapping` table records for a position of a
project's index (the spec's `IndexMapping(project_id, position) -> chunk_id`
resolution). -/
def mappingLookup (db : Db) (project_id : String) (pos : Nat) : Option String :=
  (db.faiss_index_mapping.find?
    (fun r => r.project_id == project_id && r.faiss_index == pos)).map
    (fun r => r.chunk_id)

/-! ### Similarity Search (`lemma/embeddings/search.py`) -/

/-- One result dict of `search_similar_code`. -/
structure ResultEntry where
  chunk_id : String
  repo_path : String
  file_path : String
  chunk_index : Nat
  chunk_text : String
  distance : Rat
  deriving DecidableEq, Repr

/-- Python list indexing `l[i]` with a possibly negative `i`: a negative
index counts from the end; an index out of range on either side raises
`IndexError` (`none`). -/
def pyGet (l : List String) (i : Int) : Option String :=
  if 0 ≤ i then l.get? i.toNat
  else
    let j : Int := (l.length : Int) + i
    if 0 ≤ j then l.get? j.toNat else none

/-- The `SELECT rowid, chunk_id FROM file_chunk_embeddings WHERE chunk_id IN
(SELECT id FROM file_chunks WHERE project_id=?) ORDER BY rowid ASC` query of
search.py lines 79-93: the project's embedding-row chunk ids in insertion
order. -/
def chunk_id_in_order (db : Db) (project_id : String) : List String :=
  (db.file_chunk_embeddings.filter
    (fun r => (db.file_chunks.filter
        (fun fc => fc.project_id == project_id)).any
      (fun fc => fc.id == r.chunk_id))).map (fun r => r.chunk_id)

/-- The result loop of `search_similar_code` (search.py lines 100-134) over
the `(distance, position)` pairs `zip(D[0], I[0])` the FAISS query returned:
a position passing `idx_val < len(chunk_id_in_order)` is resolved by Python
list indexing (negative positions count from the end; an index below
`-len` raises `IndexError`); the resolved chunk id is looked up in
`file_chunks` and a missing row is skipped; positions failing the bound
check are skipped. -/
def searchLoop (db : Db) (order : List String) :
    List (Rat × Int) → Except String (List ResultEntry)
  | [] => Except.ok []
  | (dist, idx_val) :: rest =>
    if idx_val < (order.length : Int) then
      match pyGet order idx_val with
      | none => Except.error "list index out of range"
      | some chunk_id =>
        match db.file_chunks.find? (fun fc => fc.id == chunk_id) with
        | some fc =>
          match searchLoop db order rest with
          | Except.ok res =>
            Except.ok (ResultEntry.mk chunk_id fc.repo_path fc.file_path
              fc.chunk_index fc.chunk_text dist :: res)
          | Except.error e => Except.error e
        | none => searchLoop db order rest
    else searchLoop db order rest

/-- The search `search_similar_code` (search.py lines 11-136), with the existence of the
project's index file and the `(distance, position)` pairs its FAISS query
returns as explicit arguments, and the query embedding `embed_vecs` as
`create_embeddings` returned it: a missing index file raises; an empty
embedding batch returns `[]`; otherwise the result loop runs over the
returned pairs. -/
def search_similar_code_with (db : Db) (project_id : String)
    (indexExists : Bool) (embed_vecs : List (List Rat))
    (pairs : List (Rat × Int)) : Except String (List ResultEntry) :=
  if !indexExists then
    Except.error ("FAISS index file not found: bin/" ++ project_id
      ++ "_index.faiss")
  else if embed_vecs.isEmpty then Except.ok []
  else searchLoop db (chunk_id_in_order db project_id) pairs

/-- The search pipeline as the repository binds it: the query text is
embedded by the stub `create_embeddings`. -/
def search_similar_code (db : Db) (project_id query_text : String)
    (indexExists : Bool) (pairs : List (Rat × Int)) :
    Except String (List ResultEntry) :=
  search_similar_code_with db project_id indexExists
    (create_embeddings [query_text]) pairs

/-! ### Characterisation of the builder loop -/

/-- Every chunk of the loop's input gets exactly one `file_chunks` row,
appended in input order. -/
theorem indexLoop_file_chunks (pid rp : String) (dim : Nat)
    (ts : List (ChunkInput × String × List Rat)) (st : LoopSt) :
    (indexLoop pid rp dim ts st).db.file_chunks =
      st.db.file_chunks ++ ts.map (fun t =>
        ChunkRow.mk t.2.1 pid rp t.1.file_path t.1.chunk_index t.1.chunk_text) := by
  induction ts generalizing st with
  | nil => simp [indexLoop]
  | cons t rest ih =>
    obtain ⟨chunk, cid, vec⟩ := t
    simp only [indexLoop]
    split
    · rw [ih]; simp
    · split
      · rw [ih]; simp
      · rw [ih]; simp

/-- A `file_chunk_embeddings` row is appended exactly for the triples whose
vector length equals the run dimension, in input order. -/
theorem indexLoop_embeddings (pid rp : String) (dim : Nat)
    (ts : List (ChunkInput × String × List Rat)) (st : LoopSt) :
    (indexLoop pid rp dim ts st).db.file_chunk_embeddings =
      st.db.file_chunk_embeddings ++
        (ts.filter (fun t => t.2.2.length == dim)).map
          (fun t => EmbeddingRow.mk t.2.1 t.2.2 dim) := by
  induction ts generalizing st with
  | nil => simp [indexLoop]
  | cons t rest ih =>
    obtain ⟨chunk, cid, vec⟩ := t
    simp only [indexLoop]
    split
    · rename_i hne
      rw [ih]
      have hf : (vec.length == dim) = false := by
        simp [hne]
      simp [List.filter_cons, hf]
    · rename_i hne
      have heq : vec.length = dim := by omega
      split
      · rw [ih]; simp [List.filter_cons, heq]
      · rw [ih]; simp [List.filter_cons, heq]

/-- The loop never touches `faiss_index_mapping`. -/
theorem indexLoop_mapping (pid rp : String) (dim : Nat)
    (ts : List (ChunkInput × String × List Rat)) (st : LoopSt) :
    (indexLoop pid rp dim ts st).db.faiss_index_mapping =
      st.db.faiss_index_mapping := by
  induction ts generalizing st with
  | nil => simp [indexLoop]
  | cons t rest ih =>
    obtain ⟨chunk, cid, vec⟩ := t
    simp only [indexLoop]
    split
    · rw [ih]
    · split
      · rw [ih]
      · rw [ih]

/-- The vectors handed to the FAISS index are those of the surviving triples,
in input order. -/
theorem indexLoop_vectors (pid rp : String) (dim : Nat)
    (ts : List (ChunkInput × String × List Rat)) (st : LoopSt) :
    (indexLoop pid rp dim ts st).faiss_vectors =
      st.faiss_vectors ++ (ts.filter (survives dim)).map (fun t => t.2.2) := by
  induction ts generalizing st with
  | nil => simp [indexLoop]
  | cons t rest ih =>
    obtain ⟨chunk, cid, vec⟩ := t
    simp only [indexLoop]
    split
    · rename_i hne
      rw [ih]
      have hf : survives dim (chunk, cid, vec) = false := by
        simp [survives, hne]
      simp [List.filter_cons, hf]
    · rename_i hne
      have heq : vec.length = dim := by omega
      split
      · rename_i hz
        rw [ih]
        have hf : survives dim (chunk, cid, vec) = false := by
          simp [survives, hz]
        simp [List.filter_cons, hf]
      · rename_i hz
        rw [ih]
        have hf : survives dim (chunk, cid, vec) = true := by
          simp [survives, heq, hz]
        simp [List.filter_cons, hf]

/-- The in-memory `faiss_index_map` lists the chunk ids of the surviving
triples, in input order — aligned 1:1 with `indexLoop_vectors`. -/
theorem indexLoop_map (pid rp : String) (dim : Nat)
    (ts : List (ChunkInput × String × List Rat)) (st : LoopSt) :
    (indexLoop pid rp dim ts st).faiss_index_map =
      st.faiss_index_map ++ (ts.filter (survives dim)).map (fun t => t.2.1) := by
  induction ts generalizing st with
  | nil => simp [indexLoop]
  | cons t rest ih =>
    obtain ⟨chunk, cid, vec⟩ := t
    simp only [indexLoop]
    split
    · rename_i hne
      rw [ih]
      have hf : survives dim (chunk, cid, vec) = false := by
        simp [survives, hne]
      simp [List.filter_cons, hf]
    · rename_i hne
      have heq : vec.length = dim := by omega
      split
      · rename_i hz
        rw [ih]
        have hf : survives dim (chunk, cid, vec) = false := by
          simp [survives, hz]
        simp [List.filter_cons, hf]
      · rename_i hz
        rw [ih]
        have hf : survives dim (chunk, cid, vec) = true := by
          simp [survives, heq, hz]
        simp [List.filter_cons, hf]

/-- The `file_chunks` rows a run leaves behind, in every branch (the loop's
inserts are committed before the no-valid-embeddings `raise`). -/
theorem cvi_file_chunks (db : Db) (pid rp : String)
    (chunks : List ChunkInput) (ids : List String) (embs : List (List Rat)) :
    (create_vector_indexes_with db pid rp chunks ids embs).db.file_chunks =
      db.file_chunks ++ (buildTriples chunks ids embs).map (fun t =>
        ChunkRow.mk t.2.1 pid rp t.1.file_path t.1.chunk_index t.1.chunk_text) := by
  cases embs with
  | nil => simp [create_vector_indexes_with, deleteProjectMapping, buildTriples]
  | cons e es =>
    simp only [create_vector_indexes_with, List.isEmpty_cons, Bool.false_eq_true,
      if_false, buildState]
    split <;>
      simp [indexLoop_file_chunks, deleteProjectMapping]

/-- The `file_chunk_embeddings` rows a run leaves behind: one per triple
whose vector length equals the run dimension. -/
theorem cvi_embeddings (db : Db) (pid rp : String)
    (chunks : List ChunkInput) (ids : List String) (embs : List (List Rat)) :
    (create_vector_indexes_with db pid rp chunks ids embs).db.file_chunk_embeddings =
      db.file_chunk_embeddings ++
        ((buildTriples chunks ids embs).filter
          (fun t => t.2.2.length == buildDim embs)).map
          (fun t => EmbeddingRow.mk t.2.1 t.2.2 (buildDim embs)) := by
  cases embs with
  | nil => simp [create_vector_indexes_with, deleteProjectMapping, buildTriples]
  | cons e es =>
    simp only [create_vector_indexes_with, List.isEmpty_cons, Bool.false_eq_true,
      if_false, buildState]
    split <;>
      simp [indexLoop_embeddings, deleteProjectMapping]

/-- The in-memory index map a run computes: the surviving triples' chunk
ids, in insertion order. -/
theorem cvi_indexMap (db : Db) (pid rp : String)
    (chunks : List ChunkInput) (ids : List String) (embs : List (List Rat)) :
    (create_vector_indexes_with db pid rp chunks ids embs).indexMap =
      ((buildTriples chunks ids embs).filter
        (survives (buildDim embs))).map (fun t => t.2.1) := by
  cases embs with
  | nil => simp [create_vector_indexes_with, buildTriples]
  | cons e es =>
    simp only [create_vector_indexes_with, List.isEmpty_cons, Bool.false_eq_true,
      if_false, buildState]
    split <;>
      simp [indexLoop_map]

/-- The vectors a run adds to the FAISS index: the surviving triples'
vectors, in insertion order, aligned 1:1 with `cvi_indexMap`. -/
theorem cvi_indexVectors (db : Db) (pid rp : String)
    (chunks : List ChunkInput) (ids : List String) (embs : List (List Rat)) :
    (create_vector_indexes_with db pid rp chunks ids embs).indexVectors =
      ((buildTriples chunks ids embs).filter
        (survives (buildDim embs))).map (fun t => t.2.2) := by
  cases embs with
  | nil => simp [create_vector_indexes_with, buildTriples]
  | cons e es =>
    simp only [create_vector_indexes_with, List.isEmpty_cons, Bool.false_eq_true,
      if_false, buildState]
    split <;>
      simp [indexLoop_vectors]

/-- On a successful run the final mapping table is the old table minus the
project's rows, plus one row per indexed vector at its insertion
position. -/
theorem cvi_mapping_ok (db : Db) (pid rp : String)
    (chunks : List ChunkInput) (ids : List String) (embs : List (List Rat))
    (hok : resultIsOk
      (create_vector_indexes_with db pid rp chunks ids embs).result = true) :
    (create_vector_indexes_with db pid rp chunks ids embs).db.faiss_index_mapping =
      db.faiss_index_mapping.filter (fun r => !(r.project_id == pid)) ++
        ((((buildTriples chunks ids embs).filter
          (survives (buildDim embs))).map (fun t => t.2.1)).enum.map
            (fun p => MappingRow.mk pid p.1 p.2)) := by
  cases embs with
  | nil => simp [create_vector_indexes_with, resultIsOk] at hok
  | cons e es =>
    simp only [create_vector_indexes_with, List.isEmpty_cons, Bool.false_eq_true,
      if_false, buildState] at hok ⊢
    split at hok
    · simp [resultIsOk] at hok
    · rename_i hvec
      rw [if_neg hvec]
      simp [indexLoop_mapping, indexLoop_map, deleteProjectMapping]

/-! ### Segmentation lemmas -/

/-- Flattening the lines `readlines` produced restores the processed text,
prefixed by the pending reversed accumulator. -/
theorem readlinesAux_flatten (cs : List Char) :
    ∀ acc : List Char, (readlinesAux acc cs).flatten = acc.reverse ++ cs := by
  induction cs with
  | nil =>
    intro acc
    by_cases hacc : acc.isEmpty
    · have : acc = [] := by
        cases acc with
        | nil => rfl
        | cons a t => simp [List.isEmpty] at hacc
      simp [readlinesAux, this]
    · simp [readlinesAux, hacc]
  | cons c cs ih =>
    intro acc
    by_cases hc : c = '\n'
    · simp [readlinesAux, hc, ih []]
    · simp [readlinesAux, hc, ih (c :: acc)]

/-- The lines `readlines` returns are a decomposition of the file text. -/
theorem pyReadlines_flatten (text : List Char) :
    (pyReadlines text).flatten = text := by
  simpa using readlinesAux_flatten text []

/-- The chunk texts of one file, concatenated in loop order, restore the
flattened lines. -/
theorem chunkLoop_text_flatten (relPath : String) (m : Nat) (hm : m ≠ 0)
    (lines : List (List Char)) (i : Nat) :
    ((chunkLoop relPath m lines i).map
      (fun c => c.chunk_text)).flatten = lines.flatten := by
  induction lines, i using chunkLoop.induct relPath m with
  | case1 lines i h =>
    have hl : lines = [] := by
      rcases h with h1 | h2
      · exact absurd h1 hm
      · exact h2
    subst hl
    simp [chunkLoop]
  | case2 lines i h ih =>
    rw [chunkLoop, dif_neg h]
    simp only [List.map_cons, List.flatten_cons]
    rw [ih, ← List.flatten_append, List.take_append_drop]

/-- The chunk texts are the joined windows. -/
theorem chunkLoop_text_windows (relPath : String) (m : Nat)
    (lines : List (List Char)) (i : Nat) :
    (chunkLoop relPath m lines i).map (fun c => c.chunk_text) =
      (chunkWindows m lines).map List.flatten := by
  induction lines, i using chunkLoop.induct relPath m with
  | case1 lines i h =>
    rw [chunkLoop, chunkWindows, dif_pos h, dif_pos h]
    rfl
  | case2 lines i h ih =>
    rw [chunkLoop, chunkWindows, dif_neg h, dif_neg h]
    simp only [List.map_cons]
    rw [ih]

/-- One step of the ceiling-division recursion the chunk count follows. -/
theorem ceilDiv_step (n m : Nat) (hm : 0 < m) (hn : 0 < n) :
    (n + m - 1) / m = (n - m + m - 1) / m + 1 := by
  rcases le_or_lt n m with h | h
  · have h1 : n - m = 0 := by omega
    have h2 : n + m - 1 = (n - 1) + m := by omega
    have h3 : (n - 1) / m = 0 := Nat.div_eq_of_lt (by omega)
    have h4 : (0 + m - 1) / m = 0 := Nat.div_eq_of_lt (by omega)
    rw [h1, h2, Nat.add_div_right _ hm, h3, h4]
  · have h2 : n + m - 1 = (n - m + m - 1) + m := by omega
    rw [h2, Nat.add_div_right _ hm]

/-- The chunk indices of one file are the consecutive integers starting at
the loop's initial index, one per window, with
`⌈lines.length / m⌉ = (lines.length + m - 1) / m` windows. -/
theorem chunkLoop_indexes (relPath : String) (m : Nat) (hm : m ≠ 0)
    (lines : List (List Char)) (i : Nat) :
    (chunkLoop relPath m lines i).map (fun c => c.chunk_index) =
      List.range' i ((lines.length + m - 1) / m) := by
  induction lines, i using chunkLoop.induct relPath m with
  | case1 lines i h =>
    have hl : lines = [] := by
      rcases h with h1 | h2
      · exact absurd h1 hm
      · exact h2
    subst hl
    have h0 : (m - 1) / m = 0 := Nat.div_eq_of_lt (by omega)
    simp [chunkLoop, h0]
  | case2 lines i h ih =>
    rw [chunkLoop, dif_neg h]
    have hl : lines ≠ [] := fun h2 => h (Or.inr h2)
    have hpos : 0 < lines.length := List.length_pos.mpr hl
    simp only [List.map_cons]
    rw [ih]
    have hstep : (lines.length + m - 1) / m =
        (lines.length - m + m - 1) / m + 1 :=
      ceilDiv_step lines.length m (Nat.pos_of_ne_zero hm) hpos
    rw [List.length_drop, hstep]
    rfl

/-- The windows list is empty only for `m = 0` or no lines. -/
theorem chunkWindows_eq_nil (m : Nat) (lines : List (List Char)) :
    chunkWindows m lines = [] ↔ (m = 0 ∨ lines = []) := by
  constructor
  · intro h
    by_contra hc
    rw [chunkWindows, dif_neg hc] at h
    exact List.cons_ne_nil _ _ h
  · intro h
    rw [chunkWindows, dif_pos h]

/-- Every window except possibly the last holds exactly `m` lines. -/
theorem chunkWindows_sizes (m : Nat) (hm : m ≠ 0)
    (lines : List (List Char)) :
    ∀ w ∈ (chunkWindows m lines).dropLast, w.length = m := by
  induction lines using chunkWindows.induct m with
  | case1 lines h =>
    rw [chunkWindows, dif_pos h]
    intro w hw
    simp at hw
  | case2 lines h ih =>
    rw [chunkWindows, dif_neg h]
    have hl : lines ≠ [] := fun h2 => h (Or.inr h2)
    have hpos : 0 < lines.length := List.length_pos.mpr hl
    by_cases hrest : chunkWindows m (lines.drop m) = []
    · rw [hrest]
      intro w hw
      simp at hw
    · obtain ⟨r, rs, hr⟩ := List.exists_cons_of_ne_nil hrest
      rw [hr]
      intro w hw
      rw [List.dropLast_cons₂] at hw
      rcases List.mem_cons.mp hw with hweq | hwrest
      · subst hweq
        have hdrop : lines.drop m ≠ [] := by
          intro hd
          rw [chunkWindows, dif_pos (Or.inr hd)] at hrest
          exact hrest rfl
        have : m < lines.length := by
          by_contra hge
          exact hdrop (List.drop_eq_nil_of_le (by omega))
        rw [List.length_take]
        omega
      · have := ih w
        rw [hr] at this
        exact this hwrest

/-! ### Search-loop lemmas -/

/-- Each `(distance, position)` pair contributes at most one result. -/
theorem searchLoop_length (db : Db) (order : List String) :
    ∀ (pairs : List (Rat × Int)) (res : List ResultEntry),
      searchLoop db order pairs = Except.ok res → res.length ≤ pairs.length := by
  intro pairs
  induction pairs with
  | nil =>
    intro res h
    simp only [searchLoop] at h
    cases h
    simp
  | cons p rest ih =>
    intro res h
    obtain ⟨dist, idx_val⟩ := p
    simp only [searchLoop] at h
    split at h
    · split at h
      · exact Except.noConfusion h
      · split at h
        · split at h
          · rename_i res' hres'
            injection h with h
            subst h
            have := ih res' hres'
            simp only [List.length_cons]
            omega
          · exact Except.noConfusion h
        · have := ih res h
          simp only [List.length_cons]
          omega
    · have := ih res h
      simp only [List.length_cons]
      omega

/-- The distances of the results form a sublist of the distances of the
returned pairs, in order. -/
theorem searchLoop_dist_sublist (db : Db) (order : List String) :
    ∀ (pairs : List (Rat × Int)) (res : List ResultEntry),
      searchLoop db order pairs = Except.ok res →
        (res.map (fun r => r.distance)).Sublist (pairs.map (fun p => p.1)) := by
  intro pairs
  induction pairs with
  | nil =>
    intro res h
    simp only [searchLoop] at h
    cases h
    simp
  | cons p rest ih =>
    intro res h
    obtain ⟨dist, idx_val⟩ := p
    simp only [searchLoop] at h
    split at h
    · split at h
      · exact Except.noConfusion h
      · split at h
        · split at h
          · rename_i res' hres'
            injection h with h
            subst h
            simpa using List.Sublist.cons₂ dist (ih res' hres')
          · exact Except.noConfusion h
        · exact List.Sublist.cons dist (ih res h)
    · exact List.Sublist.cons dist (ih res h)

/-- Every returned result's `chunk_id` was found in `file_chunks`. -/
theorem searchLoop_resolvable (db : Db) (order : List String) :
    ∀ (pairs : List (Rat × Int)) (res : List ResultEntry),
      searchLoop db order pairs = Except.ok res →
        ∀ r ∈ res, (db.file_chunks.any (fun fc => fc.id == r.chunk_id)) = true := by
  intro pairs
  induction pairs with
  | nil =>
    intro res h
    simp only [searchLoop] at h
    cases h
    intro r hr
    simp at hr
  | cons p rest ih =>
    intro res h
    obtain ⟨dist, idx_val⟩ := p
    simp only [searchLoop] at h
    split at h
    · split at h
      · exact Except.noConfusion h
      · split at h
        · rename_i fc hfc
          split at h
          · rename_i res' hres'
            injection h with h
            subst h
            intro r hr
            rcases List.mem_cons.mp hr with hr0 | hrr
            · subst hr0
              rw [List.any_eq_true]
              refine ⟨fc, List.mem_of_find?_eq_some hfc, ?_⟩
              have := List.find?_some hfc
              simpa using this
            · exact ih res' hres' r hrr
          · exact Except.noConfusion h
        · exact ih res h
    · exact ih res h

/-! ### Embedding-stub lemmas -/

/-- The squared norm of the sentinel zero vector is zero. -/
theorem normSq_replicate_zero (n : Nat) :
    normSq (List.replicate n (0 : Rat)) = 0 := by
  induction n with
  | zero => simp [normSq]
  | succ k ih =>
    simp only [List.replicate_succ, normSq, List.map_cons, List.sum_cons]
    simpa [normSq] using ih

/-- Every vector the stub generator returns is the 384-dimensional zero
vector. -/
theorem create_embeddings_mem (texts : List String) (v : List Rat)
    (hv : v ∈ create_embeddings texts) : v = List.replicate 384 (0 : Rat) := by
  simp only [create_embeddings, List.mem_map] at hv
  obtain ⟨t, _, ht⟩ := hv
  exact ht.symm

/-! ### Claim theorems -/

/-- C7: for every file segmented with `max_chunk_size > 0`, concatenating
the file's chunk texts in `chunk_index` (loop) order reproduces the file's
original text exactly. -/
theorem segmentation_roundtrip (text : List Char) (m : Nat) (hm : 0 < m)
    (relPath : String) :
    ((chunkLoop relPath m (pyReadlines text) 0).map
      (fun c => c.chunk_text)).flatten = text := by
  rw [chunkLoop_text_flatten relPath m (by omega) (pyReadlines text) 0,
    pyReadlines_flatten]

/-- Witness for C7 at the three-line file `"ab\ncd\ne"` with
`max_chunk_size = 2`. -/
theorem segmentation_roundtrip_witness :
    0 < 2 ∧
    ((chunkLoop "f.py" 2 (pyReadlines "ab\ncd\ne".data) 0).map
      (fun c => c.chunk_text)).flatten = "ab\ncd\ne".data :=
  ⟨by decide, segmentation_roundtrip "ab\ncd\ne".data 2 (by decide) "f.py"⟩

/-- C8: for every segmented file with `max_chunk_size = m > 0`, the chunk
indices are `0..k-1` contiguous with `k = ⌈line_count / m⌉`, every window
except possibly the last holds exactly `m` lines (the chunk texts being the
joined windows), and a file with zero lines yields zero chunks. -/
theorem chunk_indexes_contiguous (relPath : String)
    (lines : List (List Char)) (m : Nat) (hm : 0 < m) :
    (chunkLoop relPath m lines 0).map (fun c => c.chunk_index) =
        List.range ((lines.length + m - 1) / m)
    ∧ (∀ w ∈ (chunkWindows m lines).dropLast, w.length = m)
    ∧ (chunkLoop relPath m lines 0).map (fun c => c.chunk_text) =
        (chunkWindows m lines).map List.flatten
    ∧ (lines = [] → chunkLoop relPath m lines 0 = []) := by
  have hm2 : m ≠ 0 := by omega
  refine ⟨?_, chunkWindows_sizes m hm2 lines,
    chunkLoop_text_windows relPath m lines 0, ?_⟩
  · rw [chunkLoop_indexes relPath m hm2 lines 0, List.range_eq_range']
  · intro hl
    subst hl
    rw [chunkLoop, dif_pos (Or.inr rfl)]

/-- Witness for C8 at a five-line file with `max_chunk_size = 2`
(three windows of sizes 2/2/1, indices 0,1,2). -/
theorem chunk_indexes_contiguous_witness :
    0 < 2 ∧
    ((chunkLoop "f" 2 [['a'], ['b'], ['c'], ['d'], ['e']] 0).map
        (fun c => c.chunk_index) =
      List.range (([['a'], ['b'], ['c'], ['d'], ['e']].length + 2 - 1) / 2)
    ∧ (∀ w ∈ (chunkWindows 2 [['a'], ['b'], ['c'], ['d'], ['e']]).dropLast,
        w.length = 2)
    ∧ (chunkLoop "f" 2 [['a'], ['b'], ['c'], ['d'], ['e']] 0).map
        (fun c => c.chunk_text) =
      (chunkWindows 2 [['a'], ['b'], ['c'], ['d'], ['e']]).map List.flatten
    ∧ ([['a'], ['b'], ['c'], ['d'], ['e']] = ([] : List (List Char)) →
        chunkLoop "f" 2 [['a'], ['b'], ['c'], ['d'], ['e']] 0 = [])) :=
  ⟨by decide,
   chunk_indexes_contiguous "f" [['a'], ['b'], ['c'], ['d'], ['e']] 2 (by decide)⟩

/-- C10 counterexample: the walk check `root.endswith(".git")` does not
prune the walk, so a file inside the nested directory `.git/hooks` is
chunked — the claim that every file anywhere under a version-control
metadata directory produces no chunk is false. -/
theorem nested_git_file_is_chunked :
    segment_codebase
        [DirEntry.mk "/repo/.git/hooks" ".git/hooks"
          [FileEntry.mk "sample.py" (some "x\n".data)]] 10 true =
      [SegChunk.mk ".git/hooks/sample.py" 0 "x\n".data]
    ∧ segment_codebase
        [DirEntry.mk "/repo/.git/hooks" ".git/hooks"
          [FileEntry.mk "sample.py" (some "x\n".data)]] 10 true ≠ [] := by
  have h1 : segment_codebase
      [DirEntry.mk "/repo/.git/hooks" ".git/hooks"
        [FileEntry.mk "sample.py" (some "x\n".data)]] 10 true =
      [SegChunk.mk ".git/hooks/sample.py" 0 "x\n".data] := by
    simp [segment_codebase, processFile, chunkLoop, pyReadlines, readlinesAux,
      pyEndsWith, charsBeginWith, is_ignored_file, nameHasTest, charsContain,
      relPathOf, Char.toLower]
  refine ⟨h1, ?_⟩
  rw [h1]
  simp

/-- C10 amended: `segment_codebase` skips exactly the walked directories
whose reported path ends with `".git"` — segmentation of any walk equals
segmentation of the walk with those directories removed; files in other
directories, including nested subdirectories of a `.git` directory, are
processed normally. -/
theorem git_suffix_roots_skipped (walk : List DirEntry) (m : Nat)
    (it : Bool) :
    segment_codebase walk m it =
      segment_codebase
        (walk.filter (fun d => !(pyEndsWith d.root ".git"))) m it := by
  induction walk with
  | nil => rfl
  | cons d rest ih =>
    simp only [segment_codebase, List.map_cons, List.flatten_cons,
      List.filter_cons] at ih ⊢
    by_cases hd : pyEndsWith d.root ".git"
    · simp [hd, ih]
    · simp [hd, ih]

set_option maxRecDepth 8000 in
/-- C1: evaluation at the failing input.  A project is built from two chunks
whose embeddings are `[0,0]` (sentinel, kept out of the index) and `[1,0]`
(indexed at position 0); the build succeeds and the mapping table records
position 0 -> "c1".  A subsequent search whose FAISS query returns position 0
resolves it through the rowid order of `file_chunk_embeddings` — which still
contains the zero-norm chunk "c0" — and returns chunk "c0", not the "c1" the
mapping records: `search_similar_code` never reads `faiss_index_mapping`. -/
theorem search_resolution_disagrees_with_mapping :
    resultIsOk (create_vector_indexes_with (Db.mk [] [] []) "p" "r"
      [ChunkInput.mk "f.py" 0 "a", ChunkInput.mk "f.py" 1 "b"]
      ["c0", "c1"] [[0, 0], [1, 0]]).result = true
    ∧ mappingLookup (create_vector_indexes_with (Db.mk [] [] []) "p" "r"
      [ChunkInput.mk "f.py" 0 "a", ChunkInput.mk "f.py" 1 "b"]
      ["c0", "c1"] [[0, 0], [1, 0]]).db "p" 0 = some "c1"
    ∧ search_similar_code_with (create_vector_indexes_with (Db.mk [] [] []) "p" "r"
      [ChunkInput.mk "f.py" 0 "a", ChunkInput.mk "f.py" 1 "b"]
      ["c0", "c1"] [[0, 0], [1, 0]]).db "p" true [[0, 0]] [(1, 0)] =
      Except.ok [ResultEntry.mk "c0" "r" "f.py" 0 "a" 1]
    ∧ ("c0" : String) ≠ "c1" := by
  refine ⟨?_, ?_, ?_, by decide⟩ <;>
    simp [create_vector_indexes_with, buildState, buildDim, buildTriples,
      deleteProjectMapping, indexLoop, normSq, resultIsOk, mappingLookup,
      search_similar_code_with, searchLoop, chunk_id_in_order, pyGet,
      List.find?, List.filter, List.enum]

/-- C4: evaluation at the failing input.  The index holds one vector
(`ntotal = 1`); a `top_k = 2` query makes FAISS pad the second slot with the
sentinel position `-1`.  The check `idx_val < len(chunk_id_in_order)` lets
`-1` through and Python negative indexing resolves it to the LAST chunk in
rowid order, so the sentinel is not dropped: it contributes a second result
entry for chunk "c0" instead of being skipped. -/
theorem sentinel_position_resolves_to_last_chunk :
    search_similar_code_with
        (Db.mk [ChunkRow.mk "c0" "p" "r" "f.py" 0 "t"]
          [EmbeddingRow.mk "c0" [1, 0] 2] [MappingRow.mk "p" 0 "c0"])
        "p" true [[0, 0]] [(1, 0), (5, -1)] =
      Except.ok [ResultEntry.mk "c0" "r" "f.py" 0 "t" 1,
                 ResultEntry.mk "c0" "r" "f.py" 0 "t" 5]
    ∧ mappingLookup
        (Db.mk [ChunkRow.mk "c0" "p" "r" "f.py" 0 "t"]
          [EmbeddingRow.mk "c0" [1, 0] 2] [MappingRow.mk "p" 0 "c0"])
        "p" 1 = none := by
  exact ⟨by rfl, by rfl⟩

/-- C2 counterexample: for the EMPTY chunk list the build fails with the
step-2 message "No embeddings generated, ...", not the claimed
"No valid embeddings to add to FAISS index." — the claim's error message is
not raised for every input chunk list. -/
theorem empty_chunk_list_build_error :
    (create_vector_indexes (Db.mk [] [] []) "p" "r" [] []).result =
      Except.error "No embeddings generated, cannot build FAISS index."
    ∧ (create_vector_indexes (Db.mk [] [] []) "p" "r" [] []).result ≠
      Except.error "No valid embeddings to add to FAISS index." := by
  constructor
  · rfl
  · intro h
    have h1 : (Except.error "No embeddings generated, cannot build FAISS index." :
        Except String String) =
        Except.error "No valid embeddings to add to FAISS index." :=
      Eq.trans
        (show (Except.error "No embeddings generated, cannot build FAISS index." :
          Except String String) =
          (create_vector_indexes (Db.mk [] [] []) "p" "r" [] []).result from rfl) h
    injection h1 with h2
    exact absurd h2 (by decide)

/-- When every vector of a non-empty embedding batch has zero norm, no
vector survives to the index and the run fails with the step-6 error. -/
theorem build_fails_when_all_zero (db : Db) (pid rp : String)
    (chunks : List ChunkInput) (ids : List String) (embs : List (List Rat))
    (hne : embs ≠ []) (hz : ∀ v ∈ embs, normSq v = 0) :
    (create_vector_indexes_with db pid rp chunks ids embs).result =
      Except.error "No valid embeddings to add to FAISS index." := by
  cases embs with
  | nil => exact absurd rfl hne
  | cons e es =>
    have hfil : ((buildTriples chunks ids (e :: es)).filter
        (survives (buildDim (e :: es)))) = [] := by
      rw [List.filter_eq_nil_iff]
      intro t ht
      have h2 := (List.of_mem_zip ht).2
      have h3 := (List.of_mem_zip h2).2
      have h4 := hz _ h3
      simp [survives, h4]
    have hv : (buildState db pid rp chunks ids (e :: es)).faiss_vectors = [] := by
      simp only [buildState]
      rw [indexLoop_vectors, hfil]
      simp
    simp only [create_vector_indexes_with, List.isEmpty_cons,
      Bool.false_eq_true, if_false]
    rw [hv]
    simp

/-- C2 amended: the stub `create_embeddings` returns one vector per text,
each of zero norm (the all-zero 384-vector), with no external call made; in
consequence, for every NON-EMPTY chunk list the full pipeline raises the
"No valid embeddings to add to FAISS index." error (the empty chunk list
raises the step-2 error instead), so no indexing run can ever succeed with
this embedding generator. -/
theorem zero_stub_build_always_fails (texts : List String) (db : Db)
    (pid rp : String) (chunks : List ChunkInput) (ids : List String)
    (h : chunks ≠ []) :
    (create_embeddings texts).length = texts.length
    ∧ (∀ v ∈ create_embeddings texts, v = List.replicate 384 (0 : Rat)
        ∧ normSq v = 0)
    ∧ (create_vector_indexes db pid rp chunks ids).result =
        Except.error "No valid embeddings to add to FAISS index." := by
  refine ⟨by simp only [create_embeddings, List.length_map], ?_, ?_⟩
  · intro v hv
    have h4 := create_embeddings_mem texts v hv
    exact ⟨h4, by rw [h4]; exact normSq_replicate_zero 384⟩
  · simp only [create_vector_indexes]
    apply build_fails_when_all_zero
    · simp only [create_embeddings, ne_eq, List.map_eq_nil_iff]
      exact h
    · intro v hv
      rw [create_embeddings_mem _ v hv]
      exact normSq_replicate_zero 384

/-- Witness for the amended C2 at a one-chunk list. -/
theorem zero_stub_build_always_fails_witness :
    ([ChunkInput.mk "f.py" 0 "a"] : List ChunkInput) ≠ []
    ∧ ((create_embeddings ["q"]).length = (["q"] : List String).length
    ∧ (∀ v ∈ create_embeddings ["q"], v = List.replicate 384 (0 : Rat)
        ∧ normSq v = 0)
    ∧ (create_vector_indexes (Db.mk [] [] []) "p" "r"
        [ChunkInput.mk "f.py" 0 "a"] ["c0"]).result =
        Except.error "No valid embeddings to add to FAISS index.") :=
  ⟨by simp, zero_stub_build_always_fails ["q"] (Db.mk [] [] []) "p" "r"
    [ChunkInput.mk "f.py" 0 "a"] ["c0"] (by simp)⟩

/-- C3 counterexample: a build run on two chunks with run dimension `D = 2`
whose second vector has length 1.  The mismatched chunk "c1" gets its
`file_chunks` row but NO `file_chunk_embeddings` row — the loop `continue`s
on the dimension check before the embedding insert, so the claim that both
rows exist for every chunk regardless of dimension validity is false. -/
theorem dim_mismatch_keeps_chunk_row_only :
    ((create_vector_indexes_with (Db.mk [] [] []) "p" "r"
        [ChunkInput.mk "f.py" 0 "a", ChunkInput.mk "f.py" 1 "b"]
        ["c0", "c1"] [[1, 0], [2]]).db.file_chunks.map
          (fun r => r.id) = ["c0", "c1"])
    ∧ ((create_vector_indexes_with (Db.mk [] [] []) "p" "r"
        [ChunkInput.mk "f.py" 0 "a", ChunkInput.mk "f.py" 1 "b"]
        ["c0", "c1"] [[1, 0], [2]]).db.file_chunk_embeddings.map
          (fun r => r.chunk_id) = ["c0"])
    ∧ ¬ ("c1" ∈ (create_vector_indexes_with (Db.mk [] [] []) "p" "r"
        [ChunkInput.mk "f.py" 0 "a", ChunkInput.mk "f.py" 1 "b"]
        ["c0", "c1"] [[1, 0], [2]]).db.file_chunk_embeddings.map
          (fun r => r.chunk_id)) := by
  have h2 : (create_vector_indexes_with (Db.mk [] [] []) "p" "r"
      [ChunkInput.mk "f.py" 0 "a", ChunkInput.mk "f.py" 1 "b"]
      ["c0", "c1"] [[1, 0], [2]]).db.file_chunk_embeddings.map
        (fun r => r.chunk_id) = ["c0"] := by
    simp [create_vector_indexes_with, buildState, buildDim, buildTriples,
      deleteProjectMapping, indexLoop, normSq]
  refine ⟨?_, h2, ?_⟩
  · simp [create_vector_indexes_with, buildState, buildDim, buildTriples,
      deleteProjectMapping, indexLoop, normSq]
  · rw [h2]
    decide

/-- C3 amended: after any run (error or not — the loop's inserts are
committed first), every chunk of the input list has exactly one appended
`file_chunks` row, in input order; a `file_chunk_embeddings` row is appended
exactly for the chunks whose vector length equals the run dimension `D`
(zero-norm vectors included); and the index receives exactly the
dimension-matching, non-zero-norm vectors — so a length-mismatched vector is
excluded from the index and keeps its `Chunk` row, but loses its
`ChunkEmbedding` row. -/
theorem metadata_rows_after_build (db : Db) (pid rp : String)
    (chunks : List ChunkInput) (ids : List String) (embs : List (List Rat)) :
    (create_vector_indexes_with db pid rp chunks ids embs).db.file_chunks =
      db.file_chunks ++ (buildTriples chunks ids embs).map (fun t =>
        ChunkRow.mk t.2.1 pid rp t.1.file_path t.1.chunk_index t.1.chunk_text)
    ∧ (create_vector_indexes_with db pid rp chunks ids
        embs).db.file_chunk_embeddings =
      db.file_chunk_embeddings ++
        ((buildTriples chunks ids embs).filter
          (fun t => t.2.2.length == buildDim embs)).map
          (fun t => EmbeddingRow.mk t.2.1 t.2.2 (buildDim embs))
    ∧ (create_vector_indexes_with db pid rp chunks ids embs).indexVectors =
      ((buildTriples chunks ids embs).filter
        (survives (buildDim embs))).map (fun t => t.2.2) :=
  ⟨cvi_file_chunks db pid rp chunks ids embs,
   cvi_embeddings db pid rp chunks ids embs,
   cvi_indexVectors db pid rp chunks ids embs⟩

/-- C5 counterexample: an empty `query_text` does not yield an empty result
list.  The stub generator maps `""` to the sentinel zero vector, so the
batch `embed_vecs` is non-empty, the `if not embed_vecs` guard does not
fire, and the search proceeds: with one indexed chunk and a FAISS query
returning position 0, the call returns that chunk, not `[]`. -/
theorem empty_query_text_returns_results :
    search_similar_code
        (Db.mk [ChunkRow.mk "c0" "p" "r" "f.py" 0 "t"]
          [EmbeddingRow.mk "c0" [1, 0] 2] [MappingRow.mk "p" 0 "c0"])
        "p" "" true [(1, 0)] =
      Except.ok [ResultEntry.mk "c0" "r" "f.py" 0 "t" 1]
    ∧ (Except.ok [ResultEntry.mk "c0" "r" "f.py" 0 "t" 1] :
        Except String (List ResultEntry)) ≠ Except.ok [] := by
  refine ⟨by rfl, fun h => ?_⟩
  injection h with h
  exact List.cons_ne_nil _ _ h

/-- C5 amended: `search_similar_code` returns `[]` exactly when the
embedding BATCH comes back as an empty list (which the stub generator never
produces); an empty `query_text` instead yields the sentinel zero vector,
the guard does not fire, and the search proceeds to the k-nearest-neighbor
lookup over the project's rowid-ordered chunk ids. -/
theorem empty_batch_guard_behavior (db : Db) (pid q : String)
    (pairs : List (Rat × Int)) :
    search_similar_code_with db pid true [] pairs = Except.ok []
    ∧ search_similar_code db pid q true pairs =
        searchLoop db (chunk_id_in_order db pid) pairs := by
  exact ⟨rfl, rfl⟩

/-- C6: after any successful build run — any prior state of the mapping
table included, so also a re-run over a previously indexed project — the
`faiss_index_mapping` rows for the project are exactly one generation:
positions `0..N-1` in insertion order, where `N` is the number of vectors
added to the index, position `i` paired with the chunk id of the vector
inserted at position `i` (both lists arise from the same filtered survivor
list, so they are aligned 1:1). -/
theorem mapping_rows_exact_generation (db : Db) (pid rp : String)
    (chunks : List ChunkInput) (ids : List String) (embs : List (List Rat))
    (hok : resultIsOk
      (create_vector_indexes_with db pid rp chunks ids embs).result = true) :
    (create_vector_indexes_with db pid rp chunks ids
        embs).db.faiss_index_mapping.filter (fun r => r.project_id == pid) =
      ((((buildTriples chunks ids embs).filter
        (survives (buildDim embs))).map (fun t => t.2.1)).enum.map
          (fun p => MappingRow.mk pid p.1 p.2))
    ∧ (create_vector_indexes_with db pid rp chunks ids embs).indexVectors =
      ((buildTriples chunks ids embs).filter
        (survives (buildDim embs))).map (fun t => t.2.2) := by
  refine ⟨?_, cvi_indexVectors db pid rp chunks ids embs⟩
  rw [cvi_mapping_ok db pid rp chunks ids embs hok, List.filter_append]
  have h1 : (db.faiss_index_mapping.filter
      (fun r => !(r.project_id == pid))).filter
        (fun r => r.project_id == pid) = [] := by
    rw [List.filter_eq_nil_iff]
    intro r hr
    have h3 := (List.mem_filter.mp hr).2
    simp at h3 ⊢
    exact h3
  have h2 : (((((buildTriples chunks ids embs).filter
      (survives (buildDim embs))).map (fun t => t.2.1)).enum.map
        (fun p => MappingRow.mk pid p.1 p.2)).filter
          (fun r => r.project_id == pid)) =
      ((((buildTriples chunks ids embs).filter
        (survives (buildDim embs))).map (fun t => t.2.1)).enum.map
          (fun p => MappingRow.mk pid p.1 p.2)) := by
    rw [List.filter_eq_self]
    intro r hr
    obtain ⟨p, _, hp⟩ := List.mem_map.mp hr
    rw [← hp]
    simp
  rw [h1, h2, List.nil_append]

/-- Witness for C6: a re-run over a database already holding one prior
mapping row for project "p" and one for another project "q"; the
zero-norm first chunk is skipped, so the second chunk's vector sits at
position 0, and the project's rows after the run are exactly the new
generation. -/
theorem mapping_rows_exact_generation_witness :
    resultIsOk (create_vector_indexes_with
        (Db.mk [] [] [MappingRow.mk "p" 0 "old", MappingRow.mk "q" 0 "zz"])
        "p" "r" [ChunkInput.mk "f.py" 0 "a", ChunkInput.mk "f.py" 1 "b"]
        ["d0", "d1"] [[0, 0], [1, 0]]).result = true
    ∧ ((create_vector_indexes_with
        (Db.mk [] [] [MappingRow.mk "p" 0 "old", MappingRow.mk "q" 0 "zz"])
        "p" "r" [ChunkInput.mk "f.py" 0 "a", ChunkInput.mk "f.py" 1 "b"]
        ["d0", "d1"] [[0, 0], [1, 0]]).db.faiss_index_mapping.filter
          (fun r => r.project_id == "p") =
      ((((buildTriples [ChunkInput.mk "f.py" 0 "a", ChunkInput.mk "f.py" 1 "b"]
        ["d0", "d1"] [[0, 0], [1, 0]]).filter
          (survives (buildDim [[0, 0], [1, 0]]))).map (fun t => t.2.1)).enum.map
            (fun p => MappingRow.mk "p" p.1 p.2))
    ∧ (create_vector_indexes_with
        (Db.mk [] [] [MappingRow.mk "p" 0 "old", MappingRow.mk "q" 0 "zz"])
        "p" "r" [ChunkInput.mk "f.py" 0 "a", ChunkInput.mk "f.py" 1 "b"]
        ["d0", "d1"] [[0, 0], [1, 0]]).indexVectors =
      ((buildTriples [ChunkInput.mk "f.py" 0 "a", ChunkInput.mk "f.py" 1 "b"]
        ["d0", "d1"] [[0, 0], [1, 0]]).filter
          (survives (buildDim [[0, 0], [1, 0]]))).map (fun t => t.2.2)) :=
  ⟨by simp [create_vector_indexes_with, buildState, buildDim, buildTriples,
      deleteProjectMapping, indexLoop, normSq, resultIsOk],
   mapping_rows_exact_generation
    (Db.mk [] [] [MappingRow.mk "p" 0 "old", MappingRow.mk "q" 0 "zz"])
    "p" "r" [ChunkInput.mk "f.py" 0 "a", ChunkInput.mk "f.py" 1 "b"]
    ["d0", "d1"] [[0, 0], [1, 0]]
    (by simp [create_vector_indexes_with, buildState, buildDim, buildTriples,
      deleteProjectMapping, indexLoop, normSq, resultIsOk])⟩

/-- C9: whenever a search call returns normally, and the FAISS query
returned at most `top_k` pairs sorted by non-decreasing distance (the
contract of a FAISS `search` with `top_k`), the result list has length at
most `top_k`, is ordered by non-decreasing distance, and every returned
result's `chunk_id` resolves to an existing `file_chunks` row (the code
drops a position whose chunk fetch misses). -/
theorem search_results_bounded_sorted_resolvable (db : Db) (pid : String)
    (ex : Bool) (evs : List (List Rat)) (pairs : List (Rat × Int)) (k : Nat)
    (res : List ResultEntry)
    (hk : pairs.length ≤ k)
    (hs : List.Pairwise (fun a b => a.1 ≤ b.1) pairs)
    (hok : search_similar_code_with db pid ex evs pairs = Except.ok res) :
    res.length ≤ k
    ∧ List.Pairwise (fun a b => a.distance ≤ b.distance) res
    ∧ ∀ r ∈ res, (db.file_chunks.any (fun fc => fc.id == r.chunk_id)) = true := by
  cases ex with
  | false => simp [search_similar_code_with] at hok
  | true =>
    simp only [search_similar_code_with, Bool.not_true, Bool.false_eq_true,
      if_false] at hok
    split at hok
    · injection hok with hok
      subst hok
      refine ⟨by simp, by simp, by simp⟩
    · refine ⟨le_trans (searchLoop_length db _ pairs res hok) hk, ?_,
        searchLoop_resolvable db _ pairs res hok⟩
      have h1 : (pairs.map (fun p => p.1)).Pairwise (· ≤ ·) := by
        rw [List.pairwise_map]
        exact hs
      have h2 := List.Pairwise.sublist
        (searchLoop_dist_sublist db _ pairs res hok) h1
      rw [List.pairwise_map] at h2
      exact h2

/-- Witness for C9 at a one-chunk database, one sorted pair, `top_k = 3`. -/
theorem search_results_bounded_sorted_resolvable_witness :
    ([((1 : Rat), (0 : Int))] : List (Rat × Int)).length ≤ 3
    ∧ List.Pairwise (fun (a b : Rat × Int) => a.1 ≤ b.1) [((1 : Rat), (0 : Int))]
    ∧ search_similar_code_with
        (Db.mk [ChunkRow.mk "c0" "p" "r" "f.py" 0 "t"]
          [EmbeddingRow.mk "c0" [1, 0] 2] [MappingRow.mk "p" 0 "c0"])
        "p" true [[0, 0]] [((1 : Rat), (0 : Int))] =
      Except.ok [ResultEntry.mk "c0" "r" "f.py" 0 "t" 1]
    ∧ ([ResultEntry.mk "c0" "r" "f.py" 0 "t" 1].length ≤ 3
    ∧ List.Pairwise (fun a b => a.distance ≤ b.distance)
        [ResultEntry.mk "c0" "r" "f.py" 0 "t" 1]
    ∧ ∀ r ∈ [ResultEntry.mk "c0" "r" "f.py" 0 "t" 1],
        ((Db.mk [ChunkRow.mk "c0" "p" "r" "f.py" 0 "t"]
          [EmbeddingRow.mk "c0" [1, 0] 2]
          [MappingRow.mk "p" 0 "c0"]).file_chunks.any
            (fun fc => fc.id == r.chunk_id)) = true) :=
  ⟨by simp, by simp,
   by rfl,
   search_results_bounded_sorted_resolvable
    (Db.mk [ChunkRow.mk "c0" "p" "r" "f.py" 0 "t"]
      [EmbeddingRow.mk "c0" [1, 0] 2] [MappingRow.mk "p" 0 "c0"])
    "p" true [[0, 0]] [((1 : Rat), (0 : Int))] 3
    [ResultEntry.mk "c0" "r" "f.py" 0 "t" 1]
    (by simp) (by simp) (by rfl)⟩

end GuardianAI
